import Mathlib

/-!
Verification development for the Church-Buses membership backend
(`backend/server.py`). The FastAPI route handlers over MongoDB are shallowly
embedded as pure Lean functions over an explicit `Store` of document lists:
Mongo `find`/`find_one`/`count_documents`/`update_one`/`insert_one` become
list filtering, first-match lookup, counting, first-match update and append,
with each collection kept in insertion (natural) order.
-/

namespace ChurchBuses

/-! ## Generic list machinery

`sortByLe` is a stable insertion sort: it models Python's stable `list.sort`
(used for service statistics and upcoming birthdays) and Mongo's sorted
queries. `le` is the "may come before" relation; an element being inserted
moves past earlier elements only when it must (strictly), so elements that
compare equal keep their encounter order. `updateFirst` models Mongo's
`update_one`, which patches only the first matching document. -/

def insertByLe (le : α → α → Bool) (x : α) : List α → List α
  | [] => [x]
  | y :: ys => if le x y then x :: y :: ys else y :: insertByLe le x ys

def sortByLe (le : α → α → Bool) : List α → List α
  | [] => []
  | x :: xs => insertByLe le x (sortByLe le xs)

def updateFirst (p : α → Bool) (g : α → α) : List α → List α
  | [] => []
  | x :: xs => if p x then g x :: xs else x :: updateFirst p g xs

theorem insertByLe_perm (le : α → α → Bool) (x : α) (l : List α) :
    (insertByLe le x l).Perm (x :: l) := by
  induction l with
  | nil => simp [insertByLe]
  | cons y ys ih =>
    simp only [insertByLe]
    split
    · exact List.Perm.refl _
    · exact (ih.cons y).trans (List.Perm.swap x y ys)

theorem sortByLe_perm (le : α → α → Bool) (l : List α) :
    (sortByLe le l).Perm l := by
  induction l with
  | nil => simp [sortByLe]
  | cons x xs ih =>
    exact (insertByLe_perm le x (sortByLe le xs)).trans (ih.cons x)

theorem mem_insertByLe {le : α → α → Bool} {x a : α} {l : List α} :
    a ∈ insertByLe le x l ↔ a = x ∨ a ∈ l := by
  have := (insertByLe_perm le x l).mem_iff (a := a)
  simpa using this

theorem mem_sortByLe {le : α → α → Bool} {a : α} {l : List α} :
    a ∈ sortByLe le l ↔ a ∈ l :=
  (sortByLe_perm le l).mem_iff

theorem insertByLe_pairwise (le : α → α → Bool)
    (htot : ∀ a b, le a b = true ∨ le b a = true)
    (htrans : ∀ a b c, le a b = true → le b c = true → le a c = true)
    (x : α) (l : List α) (hl : l.Pairwise (fun a b => le a b = true)) :
    (insertByLe le x l).Pairwise (fun a b => le a b = true) := by
  induction l with
  | nil => simp [insertByLe]
  | cons y ys ih =>
    rw [List.pairwise_cons] at hl
    obtain ⟨hy, hys⟩ := hl
    simp only [insertByLe]
    split
    case isTrue hxy =>
      rw [List.pairwise_cons]
      refine ⟨?_, List.pairwise_cons.mpr ⟨hy, hys⟩⟩
      intro z hz
      rcases List.mem_cons.mp hz with hz | hz
      · exact hz ▸ hxy
      · exact htrans x y z hxy (hy z hz)
    case isFalse hxy =>
      have hyx : le y x = true := by
        rcases htot x y with h | h
        · exact absurd h hxy
        · exact h
      rw [List.pairwise_cons]
      refine ⟨?_, ih hys⟩
      intro z hz
      rcases mem_insertByLe.mp hz with hz | hz
      · exact hz ▸ hyx
      · exact hy z hz

theorem sortByLe_pairwise (le : α → α → Bool)
    (htot : ∀ a b, le a b = true ∨ le b a = true)
    (htrans : ∀ a b c, le a b = true → le b c = true → le a c = true)
    (l : List α) :
    (sortByLe le l).Pairwise (fun a b => le a b = true) := by
  induction l with
  | nil => simp [sortByLe]
  | cons x xs ih => exact insertByLe_pairwise le htot htrans x _ ih

/-- The head of a `sortByLe`-sorted list is `le`-minimal for the whole input. -/
theorem sortByLe_head_forall (le : α → α → Bool)
    (htot : ∀ a b, le a b = true ∨ le b a = true)
    (htrans : ∀ a b c, le a b = true → le b c = true → le a c = true)
    {l : List α} {h : α} {t : List α} (heq : sortByLe le l = h :: t) :
    ∀ x ∈ l, le h x = true := by
  intro x hx
  have hsorted := sortByLe_pairwise le htot htrans l
  rw [heq, List.pairwise_cons] at hsorted
  have hx' : x ∈ h :: t := by
    have : x ∈ sortByLe le l := mem_sortByLe.mpr hx
    rw [heq] at this
    exact this
  rcases List.mem_cons.mp hx' with hx' | hx'
  · subst hx'
    rcases htot x x with h' | h' <;> exact h'
  · exact hsorted.1 x hx'

/-- Stability of `sortByLe`: for any class of elements that pairwise compare
`le`-true in both directions (e.g. "same sort key"), sorting preserves their
relative order — the filtered subsequence is unchanged. -/
theorem filter_insertByLe_pos {le : α → α → Bool} {p : α → Bool}
    (hresp : ∀ a b, p a = true → p b = true → le a b = true)
    {x : α} (hx : p x = true) (l : List α) :
    (insertByLe le x l).filter p = x :: l.filter p := by
  induction l with
  | nil => simp [insertByLe, hx]
  | cons y ys ih =>
    simp only [insertByLe]
    split
    case isTrue hxy => simp [List.filter_cons, hx]
    case isFalse hxy =>
      have hyneg : p y = false := by
        cases hpy : p y
        · rfl
        · exact absurd (hresp x y hx hpy) hxy
      simp [List.filter_cons, hyneg, ih]

theorem filter_insertByLe_neg {le : α → α → Bool} {p : α → Bool}
    {x : α} (hx : p x = false) (l : List α) :
    (insertByLe le x l).filter p = l.filter p := by
  induction l with
  | nil => simp [insertByLe, hx]
  | cons y ys ih =>
    simp only [insertByLe]
    split
    case isTrue hxy => simp [List.filter_cons, hx]
    case isFalse hxy => simp [List.filter_cons, ih]

theorem filter_sortByLe {le : α → α → Bool} {p : α → Bool}
    (hresp : ∀ a b, p a = true → p b = true → le a b = true) (l : List α) :
    (sortByLe le l).filter p = l.filter p := by
  induction l with
  | nil => simp [sortByLe]
  | cons x xs ih =>
    simp only [sortByLe]
    cases hx : p x
    · rw [filter_insertByLe_neg hx, ih, List.filter_cons, hx]
      simp
    · rw [filter_insertByLe_pos hresp hx, ih, List.filter_cons, hx]
      simp

theorem updateFirst_map {p : α → Bool} {g : α → α} (f : α → β)
    (hf : ∀ x, f (g x) = f x) (l : List α) :
    (updateFirst p g l).map f = l.map f := by
  induction l with
  | nil => rfl
  | cons x xs ih =>
    simp only [updateFirst]
    split
    · simp [hf]
    · simp [ih]

theorem updateFirst_find? {p : α → Bool} {g : α → α} {l : List α} {m : α}
    (hfind : l.find? p = some m) (hgp : p (g m) = true) :
    (updateFirst p g l).find? p = some (g m) := by
  induction l with
  | nil => simp at hfind
  | cons x xs ih =>
    by_cases hx : p x = true
    · rw [List.find?_cons_of_pos _ hx] at hfind
      injection hfind with hfind
      subst hfind
      have hstep : updateFirst p g (x :: xs) = g x :: xs := by
        simp [updateFirst, hx]
      rw [hstep]
      exact List.find?_cons_of_pos _ hgp
    · rw [List.find?_cons_of_neg _ hx] at hfind
      have hstep : updateFirst p g (x :: xs) = x :: updateFirst p g xs := by
        simp [updateFirst, hx]
      rw [hstep, List.find?_cons_of_neg _ hx]
      exact ih hfind

theorem mem_updateFirst {p : α → Bool} {g : α → α} {l : List α} {y : α}
    (hy : y ∈ updateFirst p g l) :
    y ∈ l ∨ ∃ x ∈ l, p x = true ∧ y = g x := by
  induction l with
  | nil => simp [updateFirst] at hy
  | cons x xs ih =>
    simp only [updateFirst] at hy
    split at hy
    case isTrue hx =>
      rcases List.mem_cons.mp hy with hy | hy
      · exact Or.inr ⟨x, List.mem_cons_self x xs, hx, hy⟩
      · exact Or.inl (List.mem_cons_of_mem x hy)
    case isFalse hx =>
      rcases List.mem_cons.mp hy with hy | hy
      · exact Or.inl (hy ▸ List.mem_cons_self x xs)
      · rcases ih hy with h | ⟨z, hz, hpz, hyz⟩
        · exact Or.inl (List.mem_cons_of_mem x h)
        · exact Or.inr ⟨z, List.mem_cons_of_mem x hz, hpz, hyz⟩

/-- In a list where at most one element satisfies `p`, any element of
`updateFirst p g l` that still satisfies `p` is the patched image of a
matching element of `l` (provided `g` preserves `p`). -/
theorem updateFirst_unique_prop {p : α → Bool} {g : α → α} {l : List α}
    (hcount : l.countP p ≤ 1) :
    ∀ y ∈ updateFirst p g l, p y = true → ∃ x ∈ l, p x = true ∧ y = g x := by
  induction l with
  | nil => simp [updateFirst]
  | cons x xs ih =>
    intro y hy hpy
    simp only [updateFirst] at hy
    split at hy
    case isTrue hx =>
      rcases List.mem_cons.mp hy with hy | hy
      · exact ⟨x, List.mem_cons_self x xs, hx, hy⟩
      · exfalso
        rw [List.countP_cons_of_pos p xs hx] at hcount
        have hzero : xs.countP p = 0 := by omega
        have := List.countP_eq_zero.mp hzero y hy
        rw [hpy] at this
        exact this rfl
    case isFalse hx =>
      rcases List.mem_cons.mp hy with hy | hy
      · subst hy; exact absurd hpy hx
      · rw [List.countP_cons_of_neg p xs hx] at hcount
        obtain ⟨z, hz, hpz, hyz⟩ := ih hcount y hy hpy
        exact ⟨z, List.mem_cons_of_mem x hz, hpz, hyz⟩

/-- Case-sensitive sequence containment, used to model the `$regex` member
search (modelled as literal substring matching; the claims never exercise a
non-trivial pattern). -/
def listStartsWith [DecidableEq α] : List α → List α → Bool
  | [], _ => true
  | _ :: _, [] => false
  | a :: as, b :: bs => decide (a = b) && listStartsWith as bs

def listContainsSeq [DecidableEq α] (pat : List α) : List α → Bool
  | [] => listStartsWith pat []
  | l@(_ :: rest) => listStartsWith pat l || listContainsSeq pat rest

/-! ## Python primitives

`pythonIntChars` models Python's `int(str)` on the character sequences the
statistics code feeds it (`bd[:4]`): optional surrounding whitespace, an
optional sign, then a nonempty digit run with single underscores allowed
between digits. `parseIso` models `datetime.fromisoformat` for the shapes the
store actually holds — a plain `YYYY-MM-DD` date or `YYYY-MM-DD?HH:MM:SS`
with any single separator character; other inputs (including offset-aware
strings, which would later fail the naive/aware comparison) yield `none`,
which in every call site of this code base means the member is skipped. -/

def charDigitVal (c : Char) : Nat := c.toNat - 48

def pyDigitsVal (acc : Nat) : List Char → Option Nat
  | [] => some acc
  | '_' :: c :: cs =>
    if c.isDigit then pyDigitsVal (acc * 10 + charDigitVal c) cs else none
  | ['_'] => none
  | c :: cs =>
    if c.isDigit then pyDigitsVal (acc * 10 + charDigitVal c) cs else none

def pyDigits : List Char → Option Nat
  | c :: cs => if c.isDigit then pyDigitsVal (charDigitVal c) cs else none
  | [] => none

def pythonIntChars (cs : List Char) : Option Int :=
  let t := ((cs.dropWhile Char.isWhitespace).reverse.dropWhile Char.isWhitespace).reverse
  match t with
  | '+' :: rest => (pyDigits rest).map (fun n => (n : Int))
  | '-' :: rest => (pyDigits rest).map (fun n => -(n : Int))
  | rest => (pyDigits rest).map (fun n => (n : Int))

def isLeapYear (y : Int) : Bool :=
  y % 4 == 0 && (y % 100 != 0 || y % 400 == 0)

def daysInMonth (y m : Int) : Int :=
  if m = 2 then (if isLeapYear y then 29 else 28)
  else if m = 4 ∨ m = 6 ∨ m = 9 ∨ m = 11 then 30
  else 31

/-- Day number of a civil date, with day 0 = 1970-01-01 (the standard
days-from-civil computation, floor division used where the year may be
negative). -/
def daysFromCivil (y m d : Int) : Int :=
  let y2 := if m ≤ 2 then y - 1 else y
  let era := y2.fdiv 400
  let yoe := y2 - era * 400
  let mp := if m > 2 then m - 3 else m + 9
  let doy := (153 * mp + 2) / 5 + d - 1
  let doe := yoe * 365 + yoe / 4 - yoe / 100 + doy
  era * 146097 + doe - 719468

/-- A naive Python `datetime`, at second granularity: calendar fields plus the
second-of-day. All values built by `parseIso`/`dtReplaceYear` hold valid
calendar dates, on which epoch-order comparison coincides with Python's
field-lexicographic `datetime` comparison. -/
structure PyDateTime where
  year : Int
  month : Int
  day : Int
  secs : Int
deriving DecidableEq, Repr

def PyDateTime.toEpochSecs (t : PyDateTime) : Int :=
  daysFromCivil t.year t.month t.day * 86400 + t.secs

def dtLtB (a b : PyDateTime) : Bool :=
  a.toEpochSecs < b.toEpochSecs

/-- `datetime.replace(year=y)`: keeps month/day/time, `None` when the result
is not a valid date (e.g. Feb 29 mapped to a non-leap year raises ValueError,
which every caller catches by skipping the member). -/
def dtReplaceYear (t : PyDateTime) (y : Int) : Option PyDateTime :=
  if 1 ≤ y ∧ y ≤ 9999 ∧ 1 ≤ t.day ∧ t.day ≤ daysInMonth y t.month then
    some { t with year := y }
  else none

/-- `(a - b).days` for two datetimes: Python's `timedelta` normalizes so that
`.days` is the floor of the difference in whole days. -/
def tdDays (a b : PyDateTime) : Int :=
  (a.toEpochSecs - b.toEpochSecs).fdiv 86400

def digit2 (a b : Char) : Option Nat :=
  if a.isDigit && b.isDigit then some (charDigitVal a * 10 + charDigitVal b)
  else none

def digit4 (a b c d : Char) : Option Nat :=
  if a.isDigit && b.isDigit && c.isDigit && d.isDigit then
    some (charDigitVal a * 1000 + charDigitVal b * 100 + charDigitVal c * 10 + charDigitVal d)
  else none

def mkValidDate (y m d secs : Nat) : Option PyDateTime :=
  if 1 ≤ y ∧ y ≤ 9999 ∧ 1 ≤ m ∧ m ≤ 12 ∧ 1 ≤ d ∧ (d : Int) ≤ daysInMonth y m then
    some ⟨y, m, d, secs⟩
  else none

def parseIso (s : String) : Option PyDateTime :=
  match s.toList with
  | [y1, y2, y3, y4, '-', m1, m2, '-', d1, d2] => do
    let y ← digit4 y1 y2 y3 y4
    let m ← digit2 m1 m2
    let d ← digit2 d1 d2
    mkValidDate y m d 0
  | [y1, y2, y3, y4, '-', m1, m2, '-', d1, d2, _, h1, h2, ':', n1, n2, ':', s1, s2] => do
    let y ← digit4 y1 y2 y3 y4
    let m ← digit2 m1 m2
    let d ← digit2 d1 d2
    let hh ← digit2 h1 h2
    let mm ← digit2 n1 n2
    let ss ← digit2 s1 s2
    if hh ≤ 23 ∧ mm ≤ 59 ∧ ss ≤ 59 then
      mkValidDate y m d (hh * 3600 + mm * 60 + ss)
    else none
  | _ => none

/-! ## Data model

Document shapes, following `server.py`'s models and the shapes `create_member`
and the migration script write. Fields that the code writes unconditionally
are plain values; fields that may be missing from a document (`None`-able
dates, the denormalized reference labels — which `create_member` sets only
when the reference table exists — `departure_date`, `photo_url`) are
`Option`s, with `none` playing the role of absent/null. -/

structure User where
  id : String
  username : String
  password_hash : String
  full_name : String
  role : String
  member_id : Option Int
  created_at : String
deriving DecidableEq, Repr

structure Member where
  original_id : Int
  pib : String
  gender : String
  gender_ukr : String
  birth_date : Option String
  phone_mobile : String
  phone_home : String
  email : String
  repentance_date : Option String
  baptism_date : Option String
  join_date : Option String
  marital_status_id : String
  social_status_id : String
  education_id : String
  profession_id : String
  notes : String
  is_active : Bool
  holy_spirit : Bool
  has_car : Bool
  car_model : String
  skype : String
  education_place : String
  marital_status : Option String
  social_status : Option String
  education : Option String
  profession : Option String
  departure_date : Option String
  photo_url : Option String
deriving DecidableEq, Repr

structure Service where
  member_original_id : Int
  service_type_id : Int
  start_date : Option String
  end_date : Option String
deriving DecidableEq, Repr

structure ServiceType where
  original_id : Int
  name_ukr : String
deriving DecidableEq, Repr

structure Family where
  original_id : Int
  husband_id : Option Int
  wife_id : Option Int
deriving DecidableEq, Repr

structure Child where
  family_id : Int
  name : String
  birth_date : Option String
deriving DecidableEq, Repr

/-- A `reference_data` document: `{type: ..., data: {key: label, ...}}`.
The dict is modelled as an association list (dict keys are unique; lookups
take the first match). -/
structure RefTable where
  rtype : String
  data : List (String × String)
deriving DecidableEq, Repr

structure Store where
  users : List User
  members : List Member
  services : List Service
  service_types : List ServiceType
  families : List Family
  children : List Child
  reference_data : List RefTable
deriving DecidableEq, Repr

def emptyStore : Store := ⟨[], [], [], [], [], [], []⟩

structure ErrResp where
  status : Nat
  detail : String
deriving DecidableEq, Repr

/-! ## Request/response models (pydantic) -/

structure UserCreate where
  username : String
  password : String
  full_name : String
  role : String := "user"
deriving DecidableEq, Repr

structure UserResponse where
  id : String
  username : String
  full_name : String
  role : String
  member_id : Option Int
deriving DecidableEq, Repr

structure Token where
  access_token : String
  token_type : String
  user : UserResponse
deriving DecidableEq, Repr

structure MemberCreate where
  pib : String
  gender : String := "male"
  birth_date : Option String := none
  phone_mobile : Option String := none
  phone_home : Option String := none
  email : Option String := none
  repentance_date : Option String := none
  baptism_date : Option String := none
  join_date : Option String := none
  marital_status_id : Option String := none
  social_status_id : Option String := none
  education_id : Option String := none
  profession_id : Option String := none
  notes : Option String := none
deriving DecidableEq, Repr

structure MemberUpdate where
  pib : Option String := none
  gender : Option String := none
  birth_date : Option String := none
  phone_mobile : Option String := none
  phone_home : Option String := none
  email : Option String := none
  repentance_date : Option String := none
  baptism_date : Option String := none
  join_date : Option String := none
  marital_status_id : Option String := none
  social_status_id : Option String := none
  education_id : Option String := none
  profession_id : Option String := none
  notes : Option String := none
  is_active : Option Bool := none
deriving DecidableEq, Repr

/-! ## Auth route: register

`POST /auth/register`. The non-deterministic environment (generated uuid,
bcrypt hash, issued JWT, current timestamp) is passed in as parameters. -/

def register (s : Store) (user_data : UserCreate) (uid hpw tok now : String) :
    Store × Except ErrResp Token :=
  match s.users.find? (fun u => decide (u.username = user_data.username)) with
  | some _ => (s, .error ⟨400, "Username already exists"⟩)
  | none =>
    let role := if s.users.length = 0 then "admin" else user_data.role
    let user_doc : User :=
      ⟨uid, user_data.username, hpw, user_data.full_name, role, none, now⟩
    ({ s with users := s.users ++ [user_doc] },
     .ok ⟨tok, "bearer", ⟨uid, user_data.username, user_data.full_name, role, none⟩⟩)

/-! ## Members routes -/

structure ServiceView where
  name : String
  start_date : Option String
  end_date : Option String
  is_active : Bool
deriving DecidableEq, Repr

/-- The per-member service summaries built by both `get_members` and
`get_member`: all services of the member (the driver fetch is capped at 100),
each resolved through `service_types`; services whose type is unknown are
dropped (`if st:`). -/
def memberServiceViews (s : Store) (mid : Int) : List ServiceView :=
  ((s.services.filter (fun sv => decide (sv.member_original_id = mid))).take 100).filterMap
    (fun sv =>
      (s.service_types.find? (fun st => decide (st.original_id = sv.service_type_id))).map
        (fun st => ⟨st.name_ukr, sv.start_date, sv.end_date, sv.end_date.isNone⟩))

structure MembersQuery where
  page : Nat := 1
  limit : Nat := 50
  search : Option String := none
  active_only : Bool := true
  gender : Option String := none
  service_type : Option Int := none
deriving DecidableEq, Repr

def strContainsCI (pat s : String) : Bool :=
  listContainsSeq (pat.toList.map Char.toLower) (s.toList.map Char.toLower)

/-- The Mongo query `get_members` builds: `is_active` when `active_only`, a
case-insensitive `pib` regex when `search` is truthy (modelled as literal
substring matching — no claim exercises a pattern), gender equality when
`gender` is truthy. -/
def memberMatchesQuery (q : MembersQuery) (m : Member) : Bool :=
  (!q.active_only || m.is_active) &&
  (match q.search with
   | none => true
   | some pat => if pat = "" then true else strContainsCI pat m.pib) &&
  (match q.gender with
   | none => true
   | some g => if g = "" then true else decide (m.gender = g))

structure MembersPage where
  members : List (Member × List ServiceView)
  total : Nat
  page : Nat
  pages : Nat
deriving DecidableEq, Repr

/-- Ascending order on `pib`, the listing sort. -/
def pibLe (a b : Member) : Bool := decide (a.pib ≤ b.pib)

/-- The page of member documents the listing fetches: filter, sort ascending
by `pib`, `skip((page-1)*limit)`, `limit(limit)`. -/
def membersPageList (s : Store) (q : MembersQuery) : List Member :=
  ((sortByLe pibLe (s.members.filter (memberMatchesQuery q))).drop
    ((q.page - 1) * q.limit)).take q.limit

/-- The page entries with their service summaries attached, after the
optional service-type post-filter (applied only when the type id is truthy
and the type exists; membership comes from
`distinct("member_original_id", ...)`). -/
def membersPageEntries (s : Store) (q : MembersQuery) : List (Member × List ServiceView) :=
  let withServices := (membersPageList s q).map (fun m => (m, memberServiceViews s m.original_id))
  match q.service_type with
  | some t =>
    if t ≠ 0 then
      match s.service_types.find? (fun st => decide (st.original_id = t)) with
      | some _ =>
        let ids := (s.services.filter (fun sv => decide (sv.service_type_id = t))).map
          (·.member_original_id)
        withServices.filter (fun e => ids.contains e.1.original_id)
      | none => withServices
    else withServices
  | none => withServices

/-- `GET /members`. -/
def get_members (s : Store) (q : MembersQuery) : MembersPage :=
  { members := membersPageEntries s q
    total := (s.members.filter (memberMatchesQuery q)).length
    page := q.page
    pages := ((s.members.filter (memberMatchesQuery q)).length + q.limit - 1) / q.limit }

/-- The spouse projection `{pib: 1, original_id: 1}` — deliberately not the
full member record. -/
structure SpouseRef where
  pib : String
  original_id : Int
deriving DecidableEq, Repr

/-- The assembled single-member view. `spouse`/`children` model dict keys that
are only present on some paths: the outer `Option` is key presence (the key is
set only when a family is found and the spouse id is truthy, resp. when a
family is found), the inner value is what was stored (the spouse lookup itself
can yield `None`). -/
structure MemberView where
  base : Member
  services : List ServiceView
  spouse : Option (Option SpouseRef) := none
  children : Option (List Child) := none
deriving DecidableEq, Repr

/-- `GET /members/{member_id}`. -/
def get_member (s : Store) (member_id : Int) : Except ErrResp MemberView :=
  match s.members.find? (fun m => decide (m.original_id = member_id)) with
  | none => .error ⟨404, "Member not found"⟩
  | some member =>
    let v0 : MemberView := { base := member, services := memberServiceViews s member_id }
    match s.families.find? (fun f =>
        decide (f.husband_id = some member_id) || decide (f.wife_id = some member_id)) with
    | none => .ok v0
    | some family =>
      let spouse_id : Option Int :=
        if family.husband_id = some member_id then family.wife_id else family.husband_id
      let v1 : MemberView :=
        match spouse_id with
        | some sid =>
          if sid ≠ 0 then
            let sp := (s.members.find? (fun m => decide (m.original_id = sid))).map
              (fun m => SpouseRef.mk m.pib m.original_id)
            { v0 with spouse := some sp }
          else v0
        | none => v0
      let kids := (s.children.filter (fun c => decide (c.family_id = family.original_id))).take 20
      .ok { v1 with children := some kids }

/-- Descending order on `original_id` (ties keep natural order), the sort
used by the next-id lookup. -/
def descIdLe (a b : Member) : Bool := decide (b.original_id ≤ a.original_id)

/-- `find_one(sort=[("original_id", -1)])`: the first document of the
descending sort, i.e. a document carrying the maximal `original_id`. -/
def next_member_id (s : Store) : Int :=
  (match (sortByLe descIdLe s.members).head? with
   | some m => m.original_id
   | none => 0) + 1

/-- The reference-label resolution loop in `create_member`: `none` when the
reference table is missing (the member field is then left unset), otherwise
the table's label for the key, defaulting to `""` for an absent key. -/
def refResolve (s : Store) (ref_type key : String) : Option String :=
  match s.reference_data.find? (fun r => decide (r.rtype = ref_type)) with
  | none => none
  | some r => some ((((r.data.find? (fun kv => decide (kv.1 = key))).map Prod.snd)).getD "")

/-- `POST /members`. -/
def create_member (s : Store) (d : MemberCreate) : Store × Member :=
  let member : Member := {
    original_id := next_member_id s
    pib := d.pib
    gender := d.gender
    gender_ukr := if d.gender = "male" then "брат" else "сестра"
    birth_date := d.birth_date
    phone_mobile := d.phone_mobile.getD ""
    phone_home := d.phone_home.getD ""
    email := d.email.getD ""
    repentance_date := d.repentance_date
    baptism_date := d.baptism_date
    join_date := d.join_date
    marital_status_id := d.marital_status_id.getD ""
    social_status_id := d.social_status_id.getD ""
    education_id := d.education_id.getD ""
    profession_id := d.profession_id.getD ""
    notes := d.notes.getD ""
    is_active := true
    holy_spirit := false
    has_car := false
    car_model := ""
    skype := ""
    education_place := ""
    marital_status := refResolve s "marital_status" (d.marital_status_id.getD "")
    social_status := refResolve s "social_status" (d.social_status_id.getD "")
    education := refResolve s "education" (d.education_id.getD "")
    profession := refResolve s "profession" (d.profession_id.getD "")
    departure_date := none
    photo_url := none }
  ({ s with members := s.members ++ [member] }, member)

def memberUpdateNonempty (u : MemberUpdate) : Bool :=
  u.pib.isSome || u.gender.isSome || u.birth_date.isSome || u.phone_mobile.isSome ||
  u.phone_home.isSome || u.email.isSome || u.repentance_date.isSome || u.baptism_date.isSome ||
  u.join_date.isSome || u.marital_status_id.isSome || u.social_status_id.isSome ||
  u.education_id.isSome || u.profession_id.isSome || u.notes.isSome || u.is_active.isSome

/-- The `$set` patch built from the non-`None` payload fields; `gender_ukr` is
recomputed when `gender` is part of the patch. -/
def applyMemberUpdate (u : MemberUpdate) (m : Member) : Member :=
  { m with
    pib := u.pib.getD m.pib
    gender := u.gender.getD m.gender
    gender_ukr :=
      match u.gender with
      | some g => if g = "male" then "брат" else "сестра"
      | none => m.gender_ukr
    birth_date := match u.birth_date with | some v => some v | none => m.birth_date
    phone_mobile := u.phone_mobile.getD m.phone_mobile
    phone_home := u.phone_home.getD m.phone_home
    email := u.email.getD m.email
    repentance_date := match u.repentance_date with | some v => some v | none => m.repentance_date
    baptism_date := match u.baptism_date with | some v => some v | none => m.baptism_date
    join_date := match u.join_date with | some v => some v | none => m.join_date
    marital_status_id := u.marital_status_id.getD m.marital_status_id
    social_status_id := u.social_status_id.getD m.social_status_id
    education_id := u.education_id.getD m.education_id
    profession_id := u.profession_id.getD m.profession_id
    notes := u.notes.getD m.notes
    is_active := u.is_active.getD m.is_active }

/-- `PUT /members/{member_id}`: the empty-payload check comes before the
store update (and hence before the existence check). -/
def update_member (s : Store) (member_id : Int) (u : MemberUpdate) :
    Store × Except ErrResp String :=
  if !memberUpdateNonempty u then
    (s, .error ⟨400, "No data to update"⟩)
  else if s.members.any (fun m => decide (m.original_id = member_id)) then
    let ms := updateFirst (fun m => decide (m.original_id = member_id))
      (applyMemberUpdate u) s.members
    ({ s with members := ms }, .ok "Member updated")
  else
    (s, .error ⟨404, "Member not found"⟩)

/-- `DELETE /members/{member_id}`: soft delete — flips `is_active` and stamps
`departure_date` on the first matching document. -/
def delete_member (s : Store) (member_id : Int) (now : String) :
    Store × Except ErrResp String :=
  if s.members.any (fun m => decide (m.original_id = member_id)) then
    let ms := updateFirst (fun m => decide (m.original_id = member_id))
      (fun m => { m with is_active := false, departure_date := some now }) s.members
    ({ s with members := ms }, .ok "Member deactivated")
  else
    (s, .error ⟨404, "Member not found"⟩)

/-! ## Statistics

`GET /statistics`, computed fresh per call. `current_year` is
`datetime.now().year`, passed as a parameter. -/

/-- The fixed-key `age_groups` dict: keys are fixed at initialization, only
the counters change. -/
structure AgeTally where
  g0_18 : Nat := 0
  g19_30 : Nat := 0
  g31_45 : Nat := 0
  g46_60 : Nat := 0
  g60plus : Nat := 0
  unknown : Nat := 0
deriving DecidableEq, Repr

/-- One loop iteration of the age-group tally: a falsy (`None` or empty)
birth date, or an `int(bd[:4])` parse failure, goes to `unknown`; otherwise
the `age = current_year - birth_year` if/elif chain picks the bucket. -/
def tallyOne (current_year : Int) (t : AgeTally) (m : Member) : AgeTally :=
  match m.birth_date with
  | none => { t with unknown := t.unknown + 1 }
  | some bd =>
    if bd = "" then { t with unknown := t.unknown + 1 }
    else
      match pythonIntChars (bd.toList.take 4) with
      | none => { t with unknown := t.unknown + 1 }
      | some birth_year =>
        let age := current_year - birth_year
        if age < 19 then { t with g0_18 := t.g0_18 + 1 }
        else if age < 31 then { t with g19_30 := t.g19_30 + 1 }
        else if age < 46 then { t with g31_45 := t.g31_45 + 1 }
        else if age < 61 then { t with g46_60 := t.g46_60 + 1 }
        else { t with g60plus := t.g60plus + 1 }

def ageTallyList (t : AgeTally) : List (String × Nat) :=
  [("0-18", t.g0_18), ("19-30", t.g19_30), ("31-45", t.g31_45),
   ("46-60", t.g46_60), ("60+", t.g60plus), ("unknown", t.unknown)]

/-- The members scanned for the age groups:
`find({"is_active": True}, ...).to_list(2000)` — the fetch is capped at 2000
documents. -/
def statsAgeMembers (s : Store) : List Member :=
  (s.members.filter (·.is_active)).take 2000

/-- `count_documents({"service_type_id": ..., "end_date": None})`: the number
of currently-active holders of a service type. -/
def activeHolders (s : Store) (st : ServiceType) : Nat :=
  s.services.countP (fun sv => decide (sv.service_type_id = st.original_id) && sv.end_date.isNone)

/-- Per-type counts in service-type encounter order, zero counts omitted; the
`service_types` fetch is capped at 100 documents. -/
def serviceStatsRaw (s : Store) : List (String × Nat) :=
  (s.service_types.take 100).filterMap (fun st =>
    if 0 < activeHolders s st then some (st.name_ukr, activeHolders s st) else none)

/-- `service_stats.sort(key=..., reverse=True)`: stable sort, descending by
count. -/
def serviceStatsSorted (s : Store) : List (String × Nat) :=
  sortByLe (fun a b => decide (b.2 ≤ a.2)) (serviceStatsRaw s)

/-- Marital/social distributions: for each key of the reference table, count
active members holding it; omit zeros; key the result by the label. -/
def refCountStats (s : Store) (rt : String) (fieldSel : Member → String) :
    List (String × Nat) :=
  match s.reference_data.find? (fun r => decide (r.rtype = rt)) with
  | none => []
  | some r =>
    r.data.filterMap (fun kv =>
      let c := s.members.countP (fun m => m.is_active && decide (fieldSel m = kv.1))
      if 0 < c then some (kv.2, c) else none)

structure StatisticsResponse where
  total_members : Nat
  active_members : Nat
  inactive_members : Nat
  male_count : Nat
  female_count : Nat
  baptized_count : Nat
  with_holy_spirit : Nat
  age_groups : List (String × Nat)
  service_stats : List (String × Nat)
  marital_stats : List (String × Nat)
  social_stats : List (String × Nat)
deriving DecidableEq, Repr

def get_statistics (s : Store) (current_year : Int) : StatisticsResponse :=
  let total := s.members.length
  let active := s.members.countP (·.is_active)
  { total_members := total
    active_members := active
    inactive_members := total - active
    male_count := s.members.countP (fun m => m.is_active && decide (m.gender = "male"))
    female_count := s.members.countP (fun m => m.is_active && decide (m.gender = "female"))
    baptized_count := s.members.countP (fun m => m.is_active && m.baptism_date.isSome)
    with_holy_spirit := s.members.countP (fun m => m.is_active && m.holy_spirit)
    age_groups := ageTallyList ((statsAgeMembers s).foldl (tallyOne current_year) {})
    service_stats := (serviceStatsSorted s).take 15
    marital_stats := refCountStats s "marital_status" (·.marital_status_id)
    social_stats := refCountStats s "social_status" (·.social_status_id) }

/-! ## Upcoming birthdays

`GET /birthdays/upcoming?days=N`. `today` is `datetime.now()` (a naive
datetime carrying the wall-clock time of the request), passed as a
parameter. -/

def pad2 (n : Int) : String :=
  if 0 ≤ n ∧ n < 10 then "0" ++ toString n else toString n

def pad4 (n : Int) : String :=
  if 0 ≤ n ∧ n < 10 then "000" ++ toString n
  else if 0 ≤ n ∧ n < 100 then "00" ++ toString n
  else if 0 ≤ n ∧ n < 1000 then "0" ++ toString n
  else toString n

/-- `strftime("%Y-%m-%d")`. -/
def fmtDate (t : PyDateTime) : String :=
  pad4 t.year ++ "-" ++ pad2 t.month ++ "-" ++ pad2 t.day

structure UpcomingEntry where
  member_id : Int
  pib : String
  birth_date : String
  birthday_date : String
  days_until : Int
  age : Int
  phone_mobile : String
  gender : String
  photo_url : Option String
deriving DecidableEq, Repr

/-- The loop body of `get_upcoming_birthdays`: parse the birth date, take this
year's occurrence of the birthday, roll it to next year when it compares
(`datetime` comparison, wall-clock time included) before `today`, keep the
member when `0 <= days_until <= days`. Any failure (unparseable date, invalid
`replace`) is swallowed by the `except: continue`. -/
def upcomingEntryFor (today : PyDateTime) (days : Int) (m : Member) : Option UpcomingEntry :=
  match m.birth_date with
  | none => none
  | some bd =>
    if bd = "" then none
    else
      match parseIso bd with
      | none => none
      | some bd_date =>
        match dtReplaceYear bd_date today.year with
        | none => none
        | some tyb0 =>
          match (if dtLtB tyb0 today then dtReplaceYear bd_date (today.year + 1) else some tyb0) with
          | none => none
          | some this_year_bd =>
            let days_until := tdDays this_year_bd today
            if 0 ≤ days_until ∧ days_until ≤ days then
              some { member_id := m.original_id
                     pib := m.pib
                     birth_date := bd
                     birthday_date := fmtDate this_year_bd
                     days_until := days_until
                     age := this_year_bd.year - bd_date.year
                     phone_mobile := m.phone_mobile
                     gender := m.gender
                     photo_url := m.photo_url }
            else none

/-- `GET /birthdays/upcoming`: the Mongo filter keeps active members whose
`birth_date` differs from `""` (the duplicated `$ne` dict key leaves only the
`""` clause effective; `None` birth dates are then skipped by `if bd:`); the
fetch is capped at 2000; results are sorted ascending by `days_until`
(stable). -/
def get_upcoming_birthdays (s : Store) (today : PyDateTime) (days : Int) :
    List UpcomingEntry :=
  let ms := (s.members.filter (fun m => m.is_active && decide (m.birth_date ≠ some ""))).take 2000
  sortByLe (fun a b => decide (a.days_until ≤ b.days_until))
    (ms.filterMap (upcomingEntryFor today days))

/-! ## Claims -/

/-- Claim C1: a registration against an empty users collection creates the
user with role `"admin"` whatever role the request carries; against a
non-empty collection (and a fresh username) the created user — both the
stored document and the returned token — carries exactly the requested role,
so the forced promotion can only ever fire on the empty collection; a request
that leaves the role unspecified defaults to `"user"`. -/
theorem register_role_rule (s : Store) (d : UserCreate) (uid hpw tok now : String) :
    (s.users = [] →
      (register s d uid hpw tok now).2
          = .ok ⟨tok, "bearer", ⟨uid, d.username, d.full_name, "admin", none⟩⟩ ∧
      (register s d uid hpw tok now).1.users
          = [⟨uid, d.username, hpw, d.full_name, "admin", none, now⟩]) ∧
    (s.users ≠ [] → (∀ u ∈ s.users, u.username ≠ d.username) →
      (register s d uid hpw tok now).2
          = .ok ⟨tok, "bearer", ⟨uid, d.username, d.full_name, d.role, none⟩⟩ ∧
      (register s d uid hpw tok now).1.users
          = s.users ++ [⟨uid, d.username, hpw, d.full_name, d.role, none, now⟩]) ∧
    (∀ un pw fn, ({ username := un, password := pw, full_name := fn } : UserCreate).role
          = "user") := by
  refine ⟨?_, ?_, fun _ _ _ => rfl⟩
  · intro h
    simp [register, h]
  · intro hne hfresh
    have hfind : s.users.find? (fun u => decide (u.username = d.username)) = none := by
      rw [List.find?_eq_none]
      intro u hu
      simp [hfresh u hu]
    have hlen : s.users.length ≠ 0 := by
      simpa [List.length_eq_zero] using hne
    simp [register, hfind, hlen]

theorem register_role_rule_witness :
    ((register emptyStore ⟨"alice", "pw", "Alice", "presbyter"⟩ "u1" "h1" "t1" "now").2
        = .ok ⟨"t1", "bearer", ⟨"u1", "alice", "Alice", "admin", none⟩⟩) ∧
    ((register ⟨[⟨"u1", "alice", "h1", "Alice", "admin", none, "now"⟩], [], [], [], [], [], []⟩
        ⟨"bob", "pw", "Bob", "deacon"⟩ "u2" "h2" "t2" "now").2
        = .ok ⟨"t2", "bearer", ⟨"u2", "bob", "Bob", "deacon", none⟩⟩) ∧
    ({ username := "bob", password := "pw", full_name := "Bob" } : UserCreate).role = "user" := by
  refine ⟨?_, ?_, ?_⟩
  · exact ((register_role_rule emptyStore ⟨"alice", "pw", "Alice", "presbyter"⟩
      "u1" "h1" "t1" "now").1 rfl).1
  · exact ((register_role_rule
      ⟨[⟨"u1", "alice", "h1", "Alice", "admin", none, "now"⟩], [], [], [], [], [], []⟩
      ⟨"bob", "pw", "Bob", "deacon"⟩ "u2" "h2" "t2" "now").2.1
      (by decide) (by decide)).1
  · exact (register_role_rule emptyStore ⟨"x", "y", "z", "user"⟩ "a" "b" "c" "d").2.2
      "bob" "pw" "Bob"

/-- Claim C10: an update request whose payload fields are all `None` fails
with status 400 ("No data to update") and leaves the store untouched, for
every member id — existing or not — because the empty-payload check precedes
the existence check. -/
theorem update_member_empty_payload (s : Store) (member_id : Int) (u : MemberUpdate)
    (h : u.pib = none ∧ u.gender = none ∧ u.birth_date = none ∧ u.phone_mobile = none ∧
         u.phone_home = none ∧ u.email = none ∧ u.repentance_date = none ∧
         u.baptism_date = none ∧ u.join_date = none ∧ u.marital_status_id = none ∧
         u.social_status_id = none ∧ u.education_id = none ∧ u.profession_id = none ∧
         u.notes = none ∧ u.is_active = none) :
    update_member s member_id u = (s, .error ⟨400, "No data to update"⟩) := by
  obtain ⟨h1, h2, h3, h4, h5, h6, h7, h8, h9, h10, h11, h12, h13, h14, h15⟩ := h
  simp [update_member, memberUpdateNonempty,
    h1, h2, h3, h4, h5, h6, h7, h8, h9, h10, h11, h12, h13, h14, h15]

theorem update_member_empty_payload_witness :
    update_member emptyStore 42 {} = (emptyStore, .error ⟨400, "No data to update"⟩) :=
  update_member_empty_payload emptyStore 42 {}
    ⟨rfl, rfl, rfl, rfl, rfl, rfl, rfl, rfl, rfl, rfl, rfl, rfl, rfl, rfl, rfl⟩

/-! ### C2: member id assignment -/

theorem descIdLe_total : ∀ a b : Member, descIdLe a b = true ∨ descIdLe b a = true := by
  intro a b
  unfold descIdLe
  rcases le_total b.original_id a.original_id with h | h
  · exact Or.inl (decide_eq_true h)
  · exact Or.inr (decide_eq_true h)

theorem descIdLe_trans :
    ∀ a b c : Member, descIdLe a b = true → descIdLe b c = true → descIdLe a c = true := by
  intro a b c hab hbc
  unfold descIdLe at *
  exact decide_eq_true (le_trans (of_decide_eq_true hbc) (of_decide_eq_true hab))

theorem next_member_id_gt (s : Store) :
    ∀ m ∈ s.members, m.original_id < next_member_id s := by
  intro m hm
  unfold next_member_id
  cases hs : sortByLe descIdLe s.members with
  | nil =>
    have hperm := sortByLe_perm descIdLe s.members
    rw [hs] at hperm
    rw [hperm.symm.eq_nil] at hm
    simp at hm
  | cons h t =>
    have hall := sortByLe_head_forall descIdLe descIdLe_total descIdLe_trans hs m hm
    have hle : m.original_id ≤ h.original_id := of_decide_eq_true hall
    simp only [List.head?_cons]
    omega

/-- Spec-side: `mx` is the maximum of the id list. -/
def isMaxId (mx : Int) (ids : List Int) : Prop :=
  mx ∈ ids ∧ ∀ x ∈ ids, x ≤ mx

theorem next_member_id_of_max (s : Store) (mx : Int)
    (hmx : isMaxId mx (s.members.map (·.original_id))) :
    next_member_id s = mx + 1 := by
  obtain ⟨hmem, hmax⟩ := hmx
  obtain ⟨m0, hm0, hid0⟩ := List.mem_map.mp hmem
  unfold next_member_id
  cases hs : sortByLe descIdLe s.members with
  | nil =>
    have hperm := sortByLe_perm descIdLe s.members
    rw [hs] at hperm
    rw [hperm.symm.eq_nil] at hm0
    simp at hm0
  | cons h t =>
    have hall := sortByLe_head_forall descIdLe descIdLe_total descIdLe_trans hs m0 hm0
    have h1 : m0.original_id ≤ h.original_id := of_decide_eq_true hall
    have hmemh : h ∈ s.members := by
      have : h ∈ sortByLe descIdLe s.members := by
        rw [hs]; exact List.mem_cons_self h t
      exact mem_sortByLe.mp this
    have h2 : h.original_id ≤ mx :=
      hmax h.original_id (List.mem_map.mpr ⟨h, hmemh, rfl⟩)
    simp only [List.head?_cons]
    omega

/-- Claim C2: a newly created member's `original_id` is the maximum
`original_id` in the members store plus one (1 on an empty store), hence
strictly greater than every existing id; deactivation rewrites a member in
place without removing it (the id list is untouched), so creating after a
deactivation still yields an id strictly above every id ever assigned — a
lower id is never reused. -/
theorem member_id_assignment (s : Store) (d : MemberCreate) :
    (s.members = [] → (create_member s d).2.original_id = 1) ∧
    (∀ mx, isMaxId mx (s.members.map (·.original_id)) →
        (create_member s d).2.original_id = mx + 1) ∧
    (∀ m ∈ s.members, m.original_id < (create_member s d).2.original_id) ∧
    (∀ i now, ((delete_member s i now).1.members.map (·.original_id))
        = s.members.map (·.original_id)) ∧
    (∀ i now m, m ∈ s.members →
        m.original_id < (create_member (delete_member s i now).1 d).2.original_id) := by
  have hdel : ∀ i now, ((delete_member s i now).1.members.map (·.original_id))
      = s.members.map (·.original_id) := by
    intro i now
    unfold delete_member
    split
    · exact updateFirst_map (p := fun m => decide (m.original_id = i))
        (g := fun m => { m with is_active := false, departure_date := some now })
        (·.original_id) (fun x => rfl) s.members
    · rfl
  refine ⟨?_, ?_, ?_, hdel, ?_⟩
  · intro h
    simp [create_member, next_member_id, h, sortByLe]
  · intro mx hmx
    have := next_member_id_of_max s mx hmx
    simpa [create_member] using this
  · intro m hm
    have := next_member_id_gt s m hm
    simpa [create_member] using this
  · intro i now m hm
    have hmem : m.original_id ∈ ((delete_member s i now).1.members.map (·.original_id)) := by
      rw [hdel i now]
      exact List.mem_map.mpr ⟨m, hm, rfl⟩
    obtain ⟨m', hm', hid⟩ := List.mem_map.mp hmem
    have := next_member_id_gt (delete_member s i now).1 m' hm'
    rw [hid] at this
    simpa [create_member] using this

/-- A reusable concrete member record. -/
def sampleMember (i : Int) (bd : Option String) (act : Bool) : Member :=
  { original_id := i, pib := "P", gender := "male", gender_ukr := "брат", birth_date := bd,
    phone_mobile := "", phone_home := "", email := "", repentance_date := none,
    baptism_date := none, join_date := none, marital_status_id := "", social_status_id := "",
    education_id := "", profession_id := "", notes := "", is_active := act,
    holy_spirit := false, has_car := false, car_model := "", skype := "",
    education_place := "", marital_status := none, social_status := none, education := none,
    profession := none, departure_date := none, photo_url := none }

def c2Store : Store :=
  { emptyStore with members := [sampleMember 3 none true, sampleMember 7 none true] }

theorem member_id_assignment_witness :
    (create_member emptyStore { pib := "A" }).2.original_id = 1 ∧
    (create_member c2Store { pib := "B" }).2.original_id = 8 ∧
    ((delete_member c2Store 3 "2025-01-01").1.members.map (·.original_id)) = [3, 7] ∧
    3 < (create_member (delete_member c2Store 3 "2025-01-01").1 { pib := "C" }).2.original_id := by
  refine ⟨?_, ?_, ?_, ?_⟩
  · exact (member_id_assignment emptyStore { pib := "A" }).1 rfl
  · exact (member_id_assignment c2Store { pib := "B" }).2.1 7 ⟨by decide, by decide⟩
  · exact ((member_id_assignment c2Store { pib := "B" }).2.2.2.1 3 "2025-01-01").trans
      (by decide)
  · have := (member_id_assignment c2Store { pib := "C" }).2.2.2.2 3 "2025-01-01"
      (sampleMember 3 none true) (by decide)
    simpa [sampleMember] using this

/-! ### C8: member deactivation -/

theorem get_member_base (s : Store) (mid : Int) (m : Member)
    (hfind : s.members.find? (fun x => decide (x.original_id = mid)) = some m) :
    ∃ v, get_member s mid = .ok v ∧ v.base = m := by
  unfold get_member
  rw [hfind]
  cases hfam : s.families.find? (fun f =>
      decide (f.husband_id = some mid) || decide (f.wife_id = some mid)) with
  | none => exact ⟨_, rfl, rfl⟩
  | some family =>
    refine ⟨_, rfl, ?_⟩
    dsimp only
    split
    · split
      · rfl
      · rfl
    · rfl

theorem mem_membersPageList {s : Store} {q : MembersQuery} {m : Member}
    (hm : m ∈ membersPageList s q) :
    m ∈ s.members ∧ memberMatchesQuery q m = true := by
  have h1 : m ∈ sortByLe pibLe (s.members.filter (memberMatchesQuery q)) :=
    List.mem_of_mem_drop (List.mem_of_mem_take hm)
  have h2 := mem_sortByLe.mp h1
  exact ⟨(List.mem_filter.mp h2).1, (List.mem_filter.mp h2).2⟩

theorem mem_membersPageEntries {s : Store} {q : MembersQuery}
    {e : Member × List ServiceView} (he : e ∈ membersPageEntries s q) :
    e.1 ∈ s.members ∧ memberMatchesQuery q e.1 = true := by
  have hbase : e ∈ (membersPageList s q).map
      (fun m => (m, memberServiceViews s m.original_id)) := by
    unfold membersPageEntries at he
    dsimp only at he
    split at he
    · split at he
      · split at he
        · exact (List.mem_filter.mp he).1
        · exact he
      · exact he
    · exact he
  obtain ⟨m, hm, hme⟩ := List.mem_map.mp hbase
  have : e.1 = m := by rw [← hme]
  rw [this]
  exact mem_membersPageList hm

theorem memberMatchesQuery_active {q : MembersQuery} {m : Member}
    (hq : q.active_only = true) (h : memberMatchesQuery q m = true) :
    m.is_active = true := by
  unfold memberMatchesQuery at h
  rw [hq] at h
  simp only [Bool.and_eq_true] at h
  simpa using h.1.1

/-- Claim C8: deactivating an existing member succeeds, rewrites exactly
`is_active := false` and `departure_date` on that member's document (all
other fields — `original_id` included — unchanged), leaves the member
retrievable by the single-member lookup, and excludes the id from every
active-only (default) listing page. -/
theorem deactivate_member_effects (s : Store) (mid : Int) (m : Member) (now : String)
    (hm : s.members.find? (fun x => decide (x.original_id = mid)) = some m)
    (huniq : s.members.countP (fun x => decide (x.original_id = mid)) ≤ 1) :
    ((delete_member s mid now).2 = .ok "Member deactivated") ∧
    ((delete_member s mid now).1.members.find? (fun x => decide (x.original_id = mid))
        = some { m with is_active := false, departure_date := some now }) ∧
    (∃ v, get_member (delete_member s mid now).1 mid = .ok v ∧
        v.base = { m with is_active := false, departure_date := some now }) ∧
    (∀ q : MembersQuery, q.active_only = true →
        ∀ e ∈ (get_members (delete_member s mid now).1 q).members,
          e.1.original_id ≠ mid) := by
  have hpm0 := List.find?_some hm
  have hpm : decide (m.original_id = mid) = true := hpm0
  have hany : s.members.any (fun x => decide (x.original_id = mid)) = true :=
    List.any_eq_true.mpr ⟨m, List.mem_of_find?_eq_some hm, hpm⟩
  have hstore : (delete_member s mid now).1.members
      = updateFirst (fun x => decide (x.original_id = mid))
          (fun x => { x with is_active := false, departure_date := some now }) s.members := by
    simp [delete_member, hany]
  have hfind' : (delete_member s mid now).1.members.find?
      (fun x => decide (x.original_id = mid))
      = some { m with is_active := false, departure_date := some now } := by
    rw [hstore]
    exact updateFirst_find? hm hpm
  refine ⟨by simp [delete_member, hany], hfind', get_member_base _ mid _ hfind', ?_⟩
  intro q hq e he
  intro heq
  obtain ⟨hmem, hmatch⟩ := mem_membersPageEntries he
  have hact : e.1.is_active = true := memberMatchesQuery_active hq hmatch
  rw [hstore] at hmem
  have hpe : decide (e.1.original_id = mid) = true := decide_eq_true heq
  obtain ⟨x, _, _, hex⟩ := updateFirst_unique_prop huniq e.1 hmem hpe
  rw [hex] at hact
  simp at hact

def c8Store : Store := { emptyStore with members := [sampleMember 5 none true] }

def c8Deactivated : Member :=
  { sampleMember 5 none true with is_active := false, departure_date := some "2025-01-02" }

theorem deactivate_member_effects_witness :
    ((delete_member c8Store 5 "2025-01-02").2 = .ok "Member deactivated") ∧
    ((delete_member c8Store 5 "2025-01-02").1.members.find?
        (fun x => decide (x.original_id = 5)) = some c8Deactivated) := by
  have h := deactivate_member_effects c8Store 5 (sampleMember 5 none true) "2025-01-02"
    (by decide) (by decide)
  exact ⟨h.1, h.2.1⟩

/-! ### C7: spouse resolution in the single-member view -/

/-- Claim C7: when the family record found for member `mid` lists them as
`husband_id`, the assembled view attaches a spouse reference (carrying only
`pib` and `original_id`, the projected fields) whose `original_id` is that
family's `wife_id`; symmetrically, when `mid` is the `wife_id`, the attached
spouse's `original_id` is the family's `husband_id`. Stated for stores where
the spouse id is truthy and resolves to an existing member. -/
theorem member_view_spouse (s : Store) (mid : Int) (m0 : Member) (f : Family)
    (hmem : s.members.find? (fun x => decide (x.original_id = mid)) = some m0)
    (hfam : s.families.find? (fun g =>
        decide (g.husband_id = some mid) || decide (g.wife_id = some mid)) = some f) :
    (∀ w wm, f.husband_id = some mid → f.wife_id = some w → w ≠ 0 →
      s.members.find? (fun x => decide (x.original_id = w)) = some wm →
      ∃ v, get_member s mid = .ok v ∧ v.spouse = some (some ⟨wm.pib, w⟩)) ∧
    (∀ h hm, f.husband_id ≠ some mid → f.wife_id = some mid →
      f.husband_id = some h → h ≠ 0 →
      s.members.find? (fun x => decide (x.original_id = h)) = some hm →
      ∃ v, get_member s mid = .ok v ∧ v.spouse = some (some ⟨hm.pib, h⟩)) := by
  constructor
  · intro w wm hhus hwife hw hwm
    have hid : wm.original_id = w := by
      have := List.find?_some hwm
      exact of_decide_eq_true this
    refine ⟨{ base := m0, services := memberServiceViews s mid,
              spouse := some (some ⟨wm.pib, wm.original_id⟩),
              children := some ((s.children.filter
                (fun c => decide (c.family_id = f.original_id))).take 20) }, ?_, ?_⟩
    · unfold get_member
      rw [hmem]
      dsimp only
      rw [hfam]
      dsimp only
      rw [hhus, if_pos rfl, hwife]
      dsimp only
      rw [if_pos hw, hwm]
      rfl
    · dsimp only
      rw [hid]
  · intro h hm hnh hwife hhus hh hhm
    have hid : hm.original_id = h := by
      have := List.find?_some hhm
      exact of_decide_eq_true this
    refine ⟨{ base := m0, services := memberServiceViews s mid,
              spouse := some (some ⟨hm.pib, hm.original_id⟩),
              children := some ((s.children.filter
                (fun c => decide (c.family_id = f.original_id))).take 20) }, ?_, ?_⟩
    · unfold get_member
      rw [hmem]
      dsimp only
      rw [hfam]
      dsimp only
      rw [if_neg hnh, hhus]
      dsimp only
      rw [if_pos hh, hhm]
      rfl
    · dsimp only
      rw [hid]

def c7Husband : Member := sampleMember 1 none true
def c7Wife : Member := sampleMember 2 none true

def c7Store : Store :=
  { emptyStore with
    members := [c7Husband, c7Wife]
    families := [⟨10, some 1, some 2⟩] }

theorem member_view_spouse_witness :
    (∃ v, get_member c7Store 1 = .ok v ∧ v.spouse = some (some ⟨c7Wife.pib, 2⟩)) ∧
    (∃ v, get_member c7Store 2 = .ok v ∧ v.spouse = some (some ⟨c7Husband.pib, 1⟩)) := by
  constructor
  · exact (member_view_spouse c7Store 1 c7Husband ⟨10, some 1, some 2⟩
      (by decide) (by decide)).1 2 c7Wife rfl rfl (by decide) (by decide)
  · exact (member_view_spouse c7Store 2 c7Wife ⟨10, some 1, some 2⟩
      (by decide) (by decide)).2 1 c7Husband (by decide) rfl rfl (by decide) (by decide)

/-! ### C3: age-group totals versus the active-member count -/

def ageTallySum (t : AgeTally) : Nat :=
  t.g0_18 + t.g19_30 + t.g31_45 + t.g46_60 + t.g60plus + t.unknown

theorem tallyOne_sum (y : Int) (t : AgeTally) (m : Member) :
    ageTallySum (tallyOne y t m) = ageTallySum t + 1 := by
  unfold tallyOne
  cases m.birth_date with
  | none => dsimp only [ageTallySum]; omega
  | some bd =>
    dsimp only
    by_cases hbd : bd = ""
    · rw [if_pos hbd]; dsimp only [ageTallySum]; omega
    · rw [if_neg hbd]
      cases pythonIntChars (bd.toList.take 4) with
      | none => dsimp only [ageTallySum]; omega
      | some b =>
        dsimp only
        split
        · dsimp only [ageTallySum]; omega
        · split
          · dsimp only [ageTallySum]; omega
          · split
            · dsimp only [ageTallySum]; omega
            · split
              · dsimp only [ageTallySum]; omega
              · dsimp only [ageTallySum]; omega

theorem tallyFold_sum (y : Int) (ms : List Member) (t : AgeTally) :
    ageTallySum (ms.foldl (tallyOne y) t) = ageTallySum t + ms.length := by
  induction ms generalizing t with
  | nil => simp
  | cons m ms ih =>
    rw [List.foldl_cons, ih, tallyOne_sum, List.length_cons]
    omega

theorem ageTallyList_sum (t : AgeTally) :
    ((ageTallyList t).map Prod.snd).sum = ageTallySum t := by
  dsimp only [ageTallyList, ageTallySum, List.map_cons, List.map_nil]
  simp [List.sum_cons]
  omega

theorem get_statistics_active (s : Store) (y : Int) :
    (get_statistics s y).active_members = s.members.countP (·.is_active) := rfl

/-- The bucket totals always add up to the number of members the statistics
scan actually visits: the active members, capped at the 2000-document fetch
limit. -/
theorem age_groups_sum_eq_min (s : Store) (y : Int) :
    ((get_statistics s y).age_groups.map Prod.snd).sum
      = min 2000 (s.members.countP (·.is_active)) := by
  have hag : (get_statistics s y).age_groups
      = ageTallyList ((statsAgeMembers s).foldl (tallyOne y) {}) := rfl
  rw [hag, ageTallyList_sum, tallyFold_sum]
  have hzero : ageTallySum {} = 0 := rfl
  rw [hzero]
  unfold statsAgeMembers
  rw [List.length_take, List.countP_eq_length_filter]
  omega

/-- Claim C3 (amended): whenever the store holds at most 2000 active members
(so that the capped scan covers them all), the age-group values sum to the
`active_members` count of the same snapshot. -/
theorem statistics_age_sum (s : Store) (y : Int)
    (h : (get_statistics s y).active_members ≤ 2000) :
    ((get_statistics s y).age_groups.map Prod.snd).sum
      = (get_statistics s y).active_members := by
  rw [age_groups_sum_eq_min, get_statistics_active]
  rw [get_statistics_active] at h
  omega

theorem statistics_age_sum_witness :
    ((get_statistics c8Store 2025).age_groups.map Prod.snd).sum
      = (get_statistics c8Store 2025).active_members :=
  statistics_age_sum c8Store 2025 (by decide)

def manyActiveStore : Store :=
  { emptyStore with members := List.replicate 2001 (sampleMember 1 none true) }

theorem countP_replicate_pos {p : α → Bool} {a : α} (h : p a = true) (n : Nat) :
    (List.replicate n a).countP p = n := by
  induction n with
  | zero => rfl
  | succ k ih => rw [List.replicate_succ, List.countP_cons_of_pos p _ h, ih]

/-- Claim C3 counterexample: with 2001 active members the scan stops at 2000
documents, so the bucket totals sum to 2000 while `active_members` is 2001 —
the claimed equality fails for this store state. -/
theorem statistics_age_sum_cex :
    ¬ (((get_statistics manyActiveStore 2025).age_groups.map Prod.snd).sum
      = (get_statistics manyActiveStore 2025).active_members) := by
  have hcount : manyActiveStore.members.countP (·.is_active) = 2001 :=
    countP_replicate_pos rfl 2001
  have hsum := age_groups_sum_eq_min manyActiveStore 2025
  rw [hcount] at hsum
  rw [hsum, get_statistics_active, hcount]
  omega

/-! ### C4: age bucketing

Spec-side predicates, phrased as the claim does: the age is the current
calendar year minus the integer parse of the leading four characters of the
birth date (`claimAge`, `none` on a missing birth date or parse failure), and
buckets are ranges with strict upper bounds. -/

def claimAge (y : Int) (m : Member) : Option Int :=
  (m.birth_date.bind (fun bd => pythonIntChars (bd.toList.take 4))).map (fun b => y - b)

def isB0 (y : Int) (m : Member) : Bool :=
  match claimAge y m with | some a => decide (a < 19) | none => false

def isB19 (y : Int) (m : Member) : Bool :=
  match claimAge y m with | some a => decide (19 ≤ a ∧ a < 31) | none => false

def isB31 (y : Int) (m : Member) : Bool :=
  match claimAge y m with | some a => decide (31 ≤ a ∧ a < 46) | none => false

def isB46 (y : Int) (m : Member) : Bool :=
  match claimAge y m with | some a => decide (46 ≤ a ∧ a < 61) | none => false

def isB60 (y : Int) (m : Member) : Bool :=
  match claimAge y m with | some a => decide (61 ≤ a) | none => false

def isBU (y : Int) (m : Member) : Bool := (claimAge y m).isNone

theorem tallyOne_fields (y : Int) (t : AgeTally) (m : Member) :
    (tallyOne y t m).g0_18 = t.g0_18 + (if isB0 y m then 1 else 0) ∧
    (tallyOne y t m).g19_30 = t.g19_30 + (if isB19 y m then 1 else 0) ∧
    (tallyOne y t m).g31_45 = t.g31_45 + (if isB31 y m then 1 else 0) ∧
    (tallyOne y t m).g46_60 = t.g46_60 + (if isB46 y m then 1 else 0) ∧
    (tallyOne y t m).g60plus = t.g60plus + (if isB60 y m then 1 else 0) ∧
    (tallyOne y t m).unknown = t.unknown + (if isBU y m then 1 else 0) := by
  unfold tallyOne isB0 isB19 isB31 isB46 isB60 isBU claimAge
  cases m.birth_date with
  | none => simp
  | some bd =>
    dsimp only [Option.bind]
    by_cases hbd : bd = ""
    · subst hbd
      rw [if_pos rfl]
      rw [show pythonIntChars (("" : String).toList.take 4) = none from rfl]
      simp
    · rw [if_neg hbd]
      cases hp : pythonIntChars (bd.toList.take 4) with
      | none => simp
      | some b =>
        dsimp only [Option.map]
        by_cases h1 : y - b < 19
        · rw [if_pos h1]
          refine ⟨?_, ?_, ?_, ?_, ?_, ?_⟩ <;>
            first
              | (dsimp only; simp only [decide_eq_true_eq]; split <;> omega)
              | simp
        · rw [if_neg h1]
          by_cases h2 : y - b < 31
          · rw [if_pos h2]
            refine ⟨?_, ?_, ?_, ?_, ?_, ?_⟩ <;>
              first
                | (dsimp only; simp only [decide_eq_true_eq]; split <;> omega)
                | simp
          · rw [if_neg h2]
            by_cases h3 : y - b < 46
            · rw [if_pos h3]
              refine ⟨?_, ?_, ?_, ?_, ?_, ?_⟩ <;>
                first
                  | (dsimp only; simp only [decide_eq_true_eq]; split <;> omega)
                  | simp
            · rw [if_neg h3]
              by_cases h4 : y - b < 61
              · rw [if_pos h4]
                refine ⟨?_, ?_, ?_, ?_, ?_, ?_⟩ <;>
                  first
                    | (dsimp only; simp only [decide_eq_true_eq]; split <;> omega)
                    | simp
              · rw [if_neg h4]
                refine ⟨?_, ?_, ?_, ?_, ?_, ?_⟩ <;>
                  first
                    | (dsimp only; simp only [decide_eq_true_eq]; split <;> omega)
                    | simp

theorem tallyFold_fields (y : Int) (ms : List Member) (t : AgeTally) :
    (ms.foldl (tallyOne y) t).g0_18 = t.g0_18 + ms.countP (isB0 y) ∧
    (ms.foldl (tallyOne y) t).g19_30 = t.g19_30 + ms.countP (isB19 y) ∧
    (ms.foldl (tallyOne y) t).g31_45 = t.g31_45 + ms.countP (isB31 y) ∧
    (ms.foldl (tallyOne y) t).g46_60 = t.g46_60 + ms.countP (isB46 y) ∧
    (ms.foldl (tallyOne y) t).g60plus = t.g60plus + ms.countP (isB60 y) ∧
    (ms.foldl (tallyOne y) t).unknown = t.unknown + ms.countP (isBU y) := by
  induction ms generalizing t with
  | nil => simp
  | cons m ms ih =>
    obtain ⟨s1, s2, s3, s4, s5, s6⟩ := tallyOne_fields y t m
    obtain ⟨i1, i2, i3, i4, i5, i6⟩ := ih (tallyOne y t m)
    rw [List.foldl_cons]
    refine ⟨?_, ?_, ?_, ?_, ?_, ?_⟩
    · rw [i1, s1, List.countP_cons]
      cases hb : isB0 y m <;> simp [hb] <;> omega
    · rw [i2, s2, List.countP_cons]
      cases hb : isB19 y m <;> simp [hb] <;> omega
    · rw [i3, s3, List.countP_cons]
      cases hb : isB31 y m <;> simp [hb] <;> omega
    · rw [i4, s4, List.countP_cons]
      cases hb : isB46 y m <;> simp [hb] <;> omega
    · rw [i5, s5, List.countP_cons]
      cases hb : isB60 y m <;> simp [hb] <;> omega
    · rw [i6, s6, List.countP_cons]
      cases hb : isBU y m <;> simp [hb] <;> omega

theorem get_statistics_age_groups (s : Store) (y : Int) :
    (get_statistics s y).age_groups
      = ageTallyList ((statsAgeMembers s).foldl (tallyOne y) {}) := rfl

def exampleAgeStore : Store :=
  { emptyStore with members :=
      [sampleMember 1 (some "2008-03-10") true,
       sampleMember 2 (some "2000-06-15") true,
       sampleMember 3 none true] }

/-- Claim C4: the age-group output always carries exactly the six bucket keys
(zero values included), and each value counts the scanned active members
whose age — current year minus the integer parse of the first four birth-date
characters — falls in the claimed strict-upper-bound range, with parse
failures and missing birth dates counted under `"unknown"`. On a store of
three active members aged 17 and 25 and one without a birth date (year 2025)
the output is exactly the claimed dictionary. -/
theorem statistics_age_bucketing (s : Store) (y : Int) :
    ((get_statistics s y).age_groups =
      [("0-18", (statsAgeMembers s).countP (isB0 y)),
       ("19-30", (statsAgeMembers s).countP (isB19 y)),
       ("31-45", (statsAgeMembers s).countP (isB31 y)),
       ("46-60", (statsAgeMembers s).countP (isB46 y)),
       ("60+", (statsAgeMembers s).countP (isB60 y)),
       ("unknown", (statsAgeMembers s).countP (isBU y))]) ∧
    ((get_statistics exampleAgeStore 2025).age_groups
      = [("0-18", 1), ("19-30", 1), ("31-45", 0), ("46-60", 0), ("60+", 0), ("unknown", 1)]) := by
  constructor
  · rw [get_statistics_age_groups]
    obtain ⟨e1, e2, e3, e4, e5, e6⟩ := tallyFold_fields y (statsAgeMembers s) {}
    unfold ageTallyList
    rw [e1, e2, e3, e4, e5, e6]
    simp
  · decide

/-! ### C5: service popularity list -/

theorem get_statistics_service_stats (s : Store) (y : Int) :
    (get_statistics s y).service_stats = (serviceStatsSorted s).take 15 := rfl

/-- Claim C5 (amended): the service popularity list is the first 15 entries
of the stable descending-by-count sort of the per-type counts taken over the
first 100 `service_types` documents; it has length at most 15, is
non-increasing by count, keeps tied counts in encounter order, every entry
has a positive count, and every type among the first 100 with a positive
active-holder count contributes an entry to the sorted list (before the
top-15 truncation). -/
theorem service_stats_shape (s : Store) (y : Int) :
    ((get_statistics s y).service_stats.length ≤ 15) ∧
    ((get_statistics s y).service_stats.Pairwise (fun a b => b.2 ≤ a.2)) ∧
    ((get_statistics s y).service_stats = (serviceStatsSorted s).take 15) ∧
    (∀ c : Nat, (serviceStatsSorted s).filter (fun e => decide (e.2 = c))
        = (serviceStatsRaw s).filter (fun e => decide (e.2 = c))) ∧
    (∀ st ∈ s.service_types.take 100, 0 < activeHolders s st →
        (st.name_ukr, activeHolders s st) ∈ serviceStatsSorted s) ∧
    (∀ e ∈ serviceStatsSorted s, 0 < e.2) := by
  have htot : ∀ a b : String × Nat,
      (decide (b.2 ≤ a.2)) = true ∨ (decide (a.2 ≤ b.2)) = true := by
    intro a b
    rcases le_total b.2 a.2 with h | h
    · exact Or.inl (decide_eq_true h)
    · exact Or.inr (decide_eq_true h)
  have htrans : ∀ a b c : String × Nat, (decide (b.2 ≤ a.2)) = true →
      (decide (c.2 ≤ b.2)) = true → (decide (c.2 ≤ a.2)) = true := by
    intro a b c hab hbc
    exact decide_eq_true (le_trans (of_decide_eq_true hbc) (of_decide_eq_true hab))
  refine ⟨?_, ?_, rfl, ?_, ?_, ?_⟩
  · rw [get_statistics_service_stats]
    exact List.length_take_le 15 _
  · rw [get_statistics_service_stats]
    have hsorted := sortByLe_pairwise (fun a b => decide (b.2 ≤ a.2)) htot htrans
      (serviceStatsRaw s)
    have h2 : (serviceStatsSorted s).Pairwise (fun a b => b.2 ≤ a.2) :=
      hsorted.imp (fun h => of_decide_eq_true h)
    exact h2.sublist (List.take_sublist 15 _)
  · intro c
    apply filter_sortByLe
    intro a b ha hb
    have ha2 : a.2 = c := of_decide_eq_true ha
    have hb2 : b.2 = c := of_decide_eq_true hb
    exact decide_eq_true (by omega)
  · intro st hst hpos
    apply mem_sortByLe.mpr
    unfold serviceStatsRaw
    apply List.mem_filterMap.mpr
    exact ⟨st, hst, by rw [if_pos hpos]⟩
  · intro e he
    have hraw : e ∈ serviceStatsRaw s := mem_sortByLe.mp he
    unfold serviceStatsRaw at hraw
    obtain ⟨st, _, hfe⟩ := List.mem_filterMap.mp hraw
    by_cases hpos : 0 < activeHolders s st
    · rw [if_pos hpos] at hfe
      injection hfe with hfe
      rw [← hfe]
      exact hpos
    · rw [if_neg hpos] at hfe
      cases hfe

def c5WitnessStore : Store :=
  { emptyStore with
    service_types := [⟨1, "T"⟩]
    services := [⟨1, 1, none, none⟩] }

theorem service_stats_shape_witness :
    ((get_statistics c5WitnessStore 2025).service_stats.length ≤ 15) ∧
    ((("T" : String), activeHolders c5WitnessStore ⟨1, "T"⟩)
        ∈ serviceStatsSorted c5WitnessStore) := by
  have h := service_stats_shape c5WitnessStore 2025
  exact ⟨h.1, h.2.2.2.2.1 ⟨1, "T"⟩ (by decide) (by decide)⟩

def c5CexStore : Store :=
  { emptyStore with
    service_types := (List.range 16).map (fun i => ⟨(i : Int) + 1, "T" ++ toString (i + 1)⟩)
    services := (List.range 16).map (fun i => ⟨(i : Int) + 1, (i : Int) + 1, none, none⟩) }

/-- Claim C5 counterexample: with 16 service types that each have exactly one
active holder, the type `"T16"` has a positive count yet no entry in
`service_stats` — the top-15 truncation drops it (and, likewise, types beyond
the first 100 are never scanned), so the list does not contain one entry per
positive-count `ServiceType` as claimed. -/
theorem service_stats_top15_cex :
    ((⟨16, "T16"⟩ : ServiceType) ∈ c5CexStore.service_types) ∧
    (0 < activeHolders c5CexStore ⟨16, "T16"⟩) ∧
    (∀ e ∈ (get_statistics c5CexStore 2025).service_stats, e.1 ≠ "T16") := by
  decide

/-! ### C6: upcoming birthdays -/

def c6Member : Member := sampleMember 1 (some "1990-06-15") true

def c6Store : Store := { emptyStore with members := [c6Member] }

/-- 2025-06-15, 12:00:00 — the member's birthday, at noon. -/
def c6Noon : PyDateTime := ⟨2025, 6, 15, 43200⟩

/-- Claim C6, evaluated at the failing input: the store holds one active
member born 1990-06-15 and the request arrives on 2025-06-15 at noon with
`days = 7`. This year's birthday occurrence (midnight) compares before
`datetime.now()` as soon as the clock passes midnight, so the code rolls the
birthday to 2026 (`days_until = 364`) and returns no entry at all — instead
of the entry with `days_until == 0` the claim requires. -/
theorem upcoming_birthday_today_excluded :
    (parseIso "1990-06-15" = some ⟨1990, 6, 15, 0⟩) ∧
    (c6Noon.year = 2025 ∧ c6Noon.month = 6 ∧ c6Noon.day = 15) ∧
    (upcomingEntryFor c6Noon 7 c6Member = none) ∧
    (get_upcoming_birthdays c6Store c6Noon 7 = []) := by
  decide

/-! ### C9: reference-label resolution at member creation -/

theorem refResolve_table_missing {s : Store} {rt key : String}
    (h : s.reference_data.find? (fun r => decide (r.rtype = rt)) = none) :
    refResolve s rt key = none := by
  unfold refResolve
  rw [h]

theorem refResolve_key_found {s : Store} {rt key : String} {r : RefTable}
    {kv : String × String}
    (hr : s.reference_data.find? (fun r2 => decide (r2.rtype = rt)) = some r)
    (hkv : r.data.find? (fun kv2 => decide (kv2.1 = key)) = some kv) :
    refResolve s rt key = some kv.2 := by
  unfold refResolve
  rw [hr]
  dsimp only
  rw [hkv]
  rfl

theorem refResolve_key_missing {s : Store} {rt key : String} {r : RefTable}
    (hr : s.reference_data.find? (fun r2 => decide (r2.rtype = rt)) = some r)
    (hkv : r.data.find? (fun kv2 => decide (kv2.1 = key)) = none) :
    refResolve s rt key = some "" := by
  unfold refResolve
  rw [hr]
  dsimp only
  rw [hkv]
  rfl

theorem create_member_labels_are_refResolve (s : Store) (d : MemberCreate) :
    ((create_member s d).1.members = s.members ++ [(create_member s d).2]) ∧
    ((create_member s d).2.marital_status
        = refResolve s "marital_status" (d.marital_status_id.getD "")) ∧
    ((create_member s d).2.social_status
        = refResolve s "social_status" (d.social_status_id.getD "")) ∧
    ((create_member s d).2.education
        = refResolve s "education" (d.education_id.getD "")) ∧
    ((create_member s d).2.profession
        = refResolve s "profession" (d.profession_id.getD "")) :=
  ⟨rfl, rfl, rfl, rfl, rfl⟩

/-- Claim C9 (amended): member creation always succeeds (it appends the new
document to the store unconditionally); for each of the four reference kinds,
when the reference table exists the member is denormalized with the stored
label for its key — the empty string when the key is absent from the table —
but when the reference table itself is missing the label field is left unset
on the member (absent, not the empty string). Stated here for
`marital_status`; the other three kinds resolve through the identical
`refResolve` path per `create_member_labels_are_refResolve`. -/
theorem create_member_reference_labels (s : Store) (d : MemberCreate) :
    ((create_member s d).1.members = s.members ++ [(create_member s d).2]) ∧
    (s.reference_data.find? (fun r => decide (r.rtype = "marital_status")) = none →
        (create_member s d).2.marital_status = none) ∧
    (∀ r, s.reference_data.find? (fun r2 => decide (r2.rtype = "marital_status")) = some r →
        (∀ kv, r.data.find?
            (fun kv2 => decide (kv2.1 = d.marital_status_id.getD "")) = some kv →
          (create_member s d).2.marital_status = some kv.2) ∧
        (r.data.find? (fun kv2 => decide (kv2.1 = d.marital_status_id.getD "")) = none →
          (create_member s d).2.marital_status = some "")) := by
  refine ⟨rfl, ?_, ?_⟩
  · intro h
    exact (create_member_labels_are_refResolve s d).2.1.trans (refResolve_table_missing h)
  · intro r hr
    constructor
    · intro kv hkv
      exact (create_member_labels_are_refResolve s d).2.1.trans (refResolve_key_found hr hkv)
    · intro hkv
      exact (create_member_labels_are_refResolve s d).2.1.trans (refResolve_key_missing hr hkv)

def c9Store : Store :=
  { emptyStore with reference_data := [⟨"marital_status", [("m1", "lab1")]⟩] }

theorem create_member_reference_labels_witness :
    ((create_member c9Store { pib := "A", marital_status_id := some "m1" }).2.marital_status
        = some "lab1") ∧
    ((create_member c9Store { pib := "B", marital_status_id := some "zz" }).2.marital_status
        = some "") ∧
    ((create_member emptyStore { pib := "C", marital_status_id := some "m1" }).2.marital_status
        = none) := by
  refine ⟨?_, ?_, ?_⟩
  · exact ((create_member_reference_labels c9Store
      { pib := "A", marital_status_id := some "m1" }).2.2 ⟨"marital_status", [("m1", "lab1")]⟩
      (by decide)).1 ("m1", "lab1") (by decide)
  · exact ((create_member_reference_labels c9Store
      { pib := "B", marital_status_id := some "zz" }).2.2 ⟨"marital_status", [("m1", "lab1")]⟩
      (by decide)).2 (by decide)
  · exact (create_member_reference_labels emptyStore
      { pib := "C", marital_status_id := some "m1" }).2.1 rfl

def c9CexReq : MemberCreate := { pib := "X", marital_status_id := some "m1" }

/-- Claim C9 counterexample: with no `marital_status` reference table in the
store, the created member's `marital_status` field is left unset (absent/
null), not the empty string the claim requires — though creation itself still
succeeds. -/
theorem reference_missing_table_cex :
    ((create_member emptyStore c9CexReq).2.marital_status = none) ∧
    ((create_member emptyStore c9CexReq).2.marital_status ≠ some "") ∧
    ((create_member emptyStore c9CexReq).1.members
        = [(create_member emptyStore c9CexReq).2]) := by
  refine ⟨by decide, by decide, rfl⟩

end ChurchBuses
